import Mathlib

/- Verification of the reward-period resolution and analysis engine of the
report-rewards tool: a shallow embedding of the period arithmetic, the
subscription validation, the three-tier block discovery, the initial-state
location and the reward analysis, together with theorems checking the
documented behaviour. Big-integer (BN) values are modelled as Int, block
numbers as Int, period indices as Nat, percentages and ratios as Rat. -/

/-- One state snapshot: the eligible-round count, the vote count, the SLA
threshold and the accumulated (subscription, voting) reward totals, as read
at one pinned block. -/
structure Snapshot where
  eligibleRounds : Int
  votes : Int
  slaThreshold : Rat
  rewards : Int × Int

/-- Outcome of the final analysis step of main: the component-wise reward
delta and the optional (voteRatioPercent, meetsSla) verdict, where none
models the N/A report. -/
structure AnalysisOutcome where
  periodRewards : Int × Int
  slaOutcome : Option (Rat × Bool)

/-- SLA computation of main: guarded by the truthiness of eligibleRounds,
then voteRatio = (votes / eligibleRounds) * 100 and
meetsSla = (voteRatio >= slaThreshold). -/
def computeSla (votes eligibleRounds : Int) (threshold : Rat) : Option (Rat × Bool) :=
  if eligibleRounds = 0 then none
  else
    some ((votes : Rat) / (eligibleRounds : Rat) * 100,
          decide (threshold ≤ (votes : Rat) / (eligibleRounds : Rat) * 100))

/-- Analysis step of main: periodRewards is the component-wise difference of
the reward totals of the two snapshots, and the SLA verdict uses the votes,
eligible rounds and threshold read at the initial (pre-distribution) block. -/
def analyze (initial final : Snapshot) : AnalysisOutcome :=
  { periodRewards :=
      (final.rewards.1 - initial.rewards.1, final.rewards.2 - initial.rewards.2)
  , slaOutcome := computeSla initial.votes initial.eligibleRounds initial.slaThreshold }

/-- One step of the stake-record scan of validateInput: the accumulator holds
(lastUpdatePeriod, stakeValue) and is replaced exactly when a strictly
greater key is seen. -/
def scanStep (acc entry : Nat × Int) : Nat × Int :=
  if entry.1 > acc.1 then entry else acc

/-- The stake-record scan of validateInput, starting from
lastUpdatePeriod = 0 and stakeValue = 0. -/
def scanLedger (entries : List (Nat × Int)) : Nat × Int :=
  entries.foldl scanStep (0, 0)

/-- The subscription check of validateInput: an absent record fails, and a
present record is valid exactly when targetIndex is at least the scanned
lastUpdatePeriod and the scanned stakeValue is positive; on success the
stake amount is returned. -/
def validateSubscription (targetIndex : Nat) (stakeRecord : Option (List (Nat × Int))) :
    Except String Int :=
  match stakeRecord with
  | none => Except.error "not subscribed"
  | some entries =>
      if (scanLedger entries).1 ≤ targetIndex ∧ 0 < (scanLedger entries).2 then
        Except.ok (scanLedger entries).2
      else Except.error "not subscribed"

/-- Spec-side definition, following the wording of the specification for
comparison: the entry of the ledger with the maximal key, ties resolved to
the earlier entry. -/
def specLastEntry : List (Nat × Int) → Option (Nat × Int)
  | [] => none
  | e :: es =>
      match specLastEntry es with
      | none => some e
      | some f => some (if f.1 ≤ e.1 then e else f)

/-- Spec-side definition, following the wording of the specification for
comparison: valid exactly when targetIndex is at least the maximal key and
the stake stored at the maximal key is strictly positive. -/
def specValidStake (targetIndex : Nat) (entries : List (Nat × Int)) : Bool :=
  match specLastEntry entries with
  | none => false
  | some m => decide (m.1 ≤ targetIndex) && decide (0 < m.2)

/-- Addition on JS numbers restricted to integers, with none playing the role
of NaN and propagating through arithmetic. -/
def jsAdd (a b : Option Int) : Option Int :=
  match a, b with
  | some x, some y => some (x + y)
  | _, _ => none

/-- Subtraction on JS numbers restricted to integers, with none playing the
role of NaN and propagating through arithmetic. -/
def jsSub (a b : Option Int) : Option Int :=
  match a, b with
  | some x, some y => some (x - y)
  | _, _ => none

/-- Multiplication on JS numbers restricted to integers, with none playing
the role of NaN and propagating through arithmetic. -/
def jsMul (a b : Option Int) : Option Int :=
  match a, b with
  | some x, some y => some (x * y)
  | _, _ => none

/-- The currently active reward period descriptor as decoded in
getPeriodInfo; a field is none when the decoded JSON value is not a number
and therefore behaves as NaN under arithmetic. -/
structure RawPeriod where
  index : Option Int
  firstBlock : Option Int
  length : Option Int

/-- The period information record built by getPeriodInfo. The field named
end in the source is called endBlock here because end is a reserved word. -/
structure PeriodInfo where
  index : Int
  start : Int
  endBlock : Int
  length : Int
  firstBlock : Int
  deriving DecidableEq

/-- getPeriodInfo: computes the block range of the requested period from the
current descriptor, failing exactly when the computed start or end block is
NaN (the isNaN guard of the source). -/
def getPeriodInfo (current : RawPeriod) (periodIndex : Int) : Except String PeriodInfo :=
  let periodsBack := jsSub current.index (some periodIndex)
  let periodStartBlock := jsSub current.firstBlock (jsMul periodsBack current.length)
  let periodEndBlock := jsSub (jsAdd periodStartBlock current.length) (some 1)
  match periodStartBlock, periodEndBlock, current.length with
  | some s, some e, some len => Except.ok ⟨periodIndex, s, e, len, s⟩
  | _, _, _ => Except.error "Invalid period block calculation"

/-- The currently active reward period descriptor in the block-discovery
code, where all fields decode to integers. -/
structure PeriodDesc where
  index : Nat
  firstBlock : Int
  length : Int

/-- The three block-discovery strategies of the tool. -/
inductive Strategy
  | pinned
  | indexer
  | chainScan
  deriving DecidableEq

/-- Failures of the block-discovery stage. -/
inductive DiscErr
  | pinnedMismatch
  | futurePeriod
  | notFinalized
  | eventNotFound
  deriving DecidableEq

/-- Abstract chain and configuration environment seen by the
block-discovery code: the optional pinned hash, the indexer configuration
and replies, the active period descriptor, the per-period count of system
voting rounds, per-block query success, and the per-block presence of the
RewardsCalculatedForPeriod event with a given period argument. Block
identifiers are modelled as integers. -/
structure DiscoverEnv where
  pinnedHash : Option Int
  indexerConfigured : Bool
  indexerReachable : Bool
  indexerEvents : List Int
  current : PeriodDesc
  votingRoundsCount : Nat → Nat
  queryOk : Int → Bool
  hasRewardEvent : Int → Nat → Bool

/-- Start block of the period after the requested one, as computed in
queryIndexerForRewardsBlock and findBlockForPeriod. -/
def nextPeriodStartBlock (current : PeriodDesc) (periodIndex : Nat) : Int :=
  current.firstBlock - ((current.index : Int) - (periodIndex : Int)) * current.length
    + current.length

/-- queryIndexerForRewardsBlock: none when the indexer is unreachable, when
it returns no events, or when no returned block number lies in the window
from the next period start to 2000 blocks after it; otherwise the first
block number in that window. In main every one of the none cases falls
through to the chain scan. -/
def queryIndexerForRewardsBlock (env : DiscoverEnv) (periodIndex : Nat) : Option Int :=
  if env.indexerReachable = false then none
  else if env.indexerEvents.isEmpty then none
  else
    env.indexerEvents.find? (fun b =>
      decide (nextPeriodStartBlock env.current periodIndex ≤ b)
        && decide (b ≤ nextPeriodStartBlock env.current periodIndex + 2000))

/-- findBlockForPeriod: the bounded on-chain scan. Rejects current or future
periods, narrows the scan start of the next period by the count of system
voting rounds of the previous period (clamped back to the period start),
then returns the first successfully queried block of the range whose events
contain the matching RewardsCalculatedForPeriod event. -/
def findBlockForPeriod (env : DiscoverEnv) (periodIndex : Nat) : Except DiscErr Int :=
  if periodIndex > env.current.index then Except.error DiscErr.futurePeriod
  else if periodIndex + 1 > env.current.index then Except.error DiscErr.notFinalized
  else
    let requestedPeriodStartBlock : Int :=
      env.current.firstBlock
        - ((env.current.index : Int) - (periodIndex : Int)) * env.current.length
    let nextStart := requestedPeriodStartBlock + env.current.length
    let nextEnd := nextStart + env.current.length - 1
    let startBlock : Int :=
      if 1 ≤ periodIndex then
        let s := nextStart + (env.votingRoundsCount (periodIndex - 1) : Int)
        if s > nextEnd then nextStart else s
      else nextStart
    match (List.range (nextEnd + 1 - startBlock).toNat).find? (fun i =>
        env.queryOk (startBlock + (i : Int))
          && env.hasRewardEvent (startBlock + (i : Int)) periodIndex) with
    | some i => Except.ok (startBlock + (i : Int))
    | none => Except.error DiscErr.eventNotFound

/-- The three-priority block discovery of main, also recording which
strategies were attempted: a supplied pinned hash is verified and is fatal
on mismatch; otherwise a configured indexer is queried and any indexer
failure falls through to the chain scan; otherwise the chain scan runs
directly. -/
def discoverBlock (env : DiscoverEnv) (periodIndex : Nat) :
    Except DiscErr Int × List Strategy :=
  match env.pinnedHash with
  | some h =>
      if env.hasRewardEvent h periodIndex then (Except.ok h, [Strategy.pinned])
      else (Except.error DiscErr.pinnedMismatch, [Strategy.pinned])
  | none =>
      if env.indexerConfigured then
        match queryIndexerForRewardsBlock env periodIndex with
        | some b => (Except.ok b, [Strategy.indexer])
        | none =>
            (findBlockForPeriod env periodIndex, [Strategy.indexer, Strategy.chainScan])
      else (findBlockForPeriod env periodIndex, [Strategy.chainScan])

/-- A concrete environment with a pinned hash whose events do not contain
the matching distribution event. -/
def envPinnedBad : DiscoverEnv :=
  { pinnedHash := some 7
  , indexerConfigured := false
  , indexerReachable := true
  , indexerEvents := []
  , current := ⟨1, 0, 1⟩
  , votingRoundsCount := fun _ => 0
  , queryOk := fun _ => true
  , hasRewardEvent := fun _ _ => false }

/-- A concrete environment with no pinned hash and a configured but
unreachable indexer. -/
def envIndexerDown : DiscoverEnv :=
  { pinnedHash := none
  , indexerConfigured := true
  , indexerReachable := false
  , indexerEvents := []
  , current := ⟨2, 10, 5⟩
  , votingRoundsCount := fun _ => 0
  , queryOk := fun _ => true
  , hasRewardEvent := fun _ _ => false }

/-- The block numbers examined by the backward walk of
findBlockBeforeRewardsCalculated: up to 50 numbers below the distribution
block, in descending order, stopping before going below zero. The break of
the source loop at a negative number equals this filter because the
examined numbers decrease. -/
def examinedWindow (blockNumber : Int) : List Int :=
  ((List.range 50).map (fun i : Nat => blockNumber - (1 + (i : Int)))).filter
    (fun b => decide (0 ≤ b))

/-- The backward walk of findBlockBeforeRewardsCalculated over the examined
blocks: stops at the first block without an EarnedRewardCalculated event;
with the list exhausted it returns the last seen block holding the event,
and with no block seen at all the block right below the distribution
block. -/
def walkBack (hasEarned : Int → Bool) (blockNumber : Int) :
    List Int → Option Int → Int
  | [], lastWithEvent =>
      match lastWithEvent with
      | some b => b
      | none => blockNumber - 1
  | b :: bs, _ =>
      if hasEarned b then walkBack hasEarned blockNumber bs (some b) else b

/-- findBlockBeforeRewardsCalculated: locate the initial-state block by
walking backward from the distribution block. -/
def findBlockBeforeRewardsCalculated (hasEarned : Int → Bool) (blockNumber : Int) : Int :=
  walkBack hasEarned blockNumber (examinedWindow blockNumber) none

/-- The initial-rewards branch of main: with an absent initial block
reference the totals are assumed zero; with a present reference the stored
totals are read and their absence aborts with an error. -/
def resolveInitialRewards (earnedRewards : Int → Option (Int × Int)) :
    Option Int → Except String (Int × Int)
  | some h =>
      match earnedRewards h with
      | some r => Except.ok r
      | none => Except.error "Failed to get initial rewards"
  | none => Except.ok (0, 0)

/-- Composition of main: the initial block reference handed to the
initial-rewards branch is always the block returned by the locator. -/
def mainInitialRewards (hasEarned : Int → Bool) (earnedRewards : Int → Option (Int × Int))
    (distributionBlock : Int) : Except String (Int × Int) :=
  resolveInitialRewards earnedRewards
    (some (findBlockBeforeRewardsCalculated hasEarned distributionBlock))

/-- The fold of scanStep from any accumulator lands on the entry with the
maximal key when that key beats the accumulator key, and on the accumulator
otherwise; ties keep the earlier entry on both sides. -/
theorem foldl_scanStep (es : List (Nat × Int)) :
    ∀ acc : Nat × Int,
      es.foldl scanStep acc
        = match specLastEntry es with
          | none => acc
          | some m => if acc.1 < m.1 then m else acc := by
  induction es with
  | nil => intro acc; rfl
  | cons e es ih =>
      intro acc
      rw [List.foldl_cons, ih (scanStep acc e)]
      cases hsl : specLastEntry es with
      | none =>
          simp only [specLastEntry, hsl, scanStep, gt_iff_lt]
      | some m =>
          simp only [specLastEntry, hsl, scanStep, gt_iff_lt]
          by_cases h1 : acc.1 < e.1
          · rw [if_pos h1]
            by_cases h2 : m.1 ≤ e.1
            · rw [if_pos h2, if_neg (by omega), if_pos h1]
            · rw [if_neg h2, if_pos (by omega), if_pos (by omega)]
          · rw [if_neg h1]
            by_cases h2 : m.1 ≤ e.1
            · rw [if_pos h2, if_neg (by omega), if_neg h1]
            · rw [if_neg h2]

/-- scanLedger computes the maximal-key entry of the ledger when the maximal
key is positive, and (0, 0) otherwise. -/
theorem scanLedger_eq (entries : List (Nat × Int)) :
    scanLedger entries
      = match specLastEntry entries with
        | none => ((0 : Nat), (0 : Int))
        | some m => if 0 < m.1 then m else ((0 : Nat), (0 : Int)) := by
  unfold scanLedger
  exact foldl_scanStep entries ((0 : Nat), (0 : Int))

/-- Claim C1: the analyzer computes periodRewards as the component-wise
exact big-integer difference of final minus initial reward totals, with no
clamping of negative results; on the documented concrete totals it yields
exactly (223792384141068974, 1535257246929821022). -/
theorem analyze_periodRewards_delta (i f : Snapshot) :
    (analyze i f).periodRewards
        = (f.rewards.1 - i.rewards.1, f.rewards.2 - i.rewards.2)
    ∧ (analyze ⟨0, 0, 0, (7982644892450463358, 30299138028873089534)⟩
               ⟨0, 0, 0, (8206437276591532332, 31834395275802910556)⟩).periodRewards
        = (223792384141068974, 1535257246929821022)
    ∧ (analyze ⟨0, 0, 0, (5, 5)⟩ ⟨0, 0, 0, (3, 7)⟩).periodRewards = (-2, 2) :=
  ⟨rfl, by decide, by decide⟩

/-- Claim C2: with nonzero eligibleRounds the verdict is
voteRatioPercent = (votes / eligibleRounds) * 100 and
meetsSla = (voteRatioPercent >= slaThreshold) with the threshold taken from
the initial snapshot; on the documented examples the ratio is about 124.49
and about 70.11 and meetsSla is true in both. -/
theorem analyze_sla_verdict (i f : Snapshot) (hne : i.eligibleRounds ≠ 0) :
    (analyze i f).slaOutcome
        = some ((i.votes : Rat) / (i.eligibleRounds : Rat) * 100,
                decide (i.slaThreshold ≤ (i.votes : Rat) / (i.eligibleRounds : Rat) * 100))
    ∧ computeSla 61 49 60 = some (6100 / 49, true)
    ∧ computeSla 61 87 60 = some (6100 / 87, true)
    ∧ ((124.48 : Rat) < 6100 / 49 ∧ (6100 / 49 : Rat) < 124.49)
    ∧ ((70.11 : Rat) < 6100 / 87 ∧ (6100 / 87 : Rat) < 70.12) := by
  refine ⟨?_, ?_, ?_, ⟨by norm_num, by norm_num⟩, ⟨by norm_num, by norm_num⟩⟩
  · simp [analyze, computeSla, hne]
  · norm_num [computeSla]
  · norm_num [computeSla]

/-- Witness for claim C2 at concrete snapshots with 49 eligible rounds. -/
theorem analyze_sla_verdict_witness :
    (analyze ⟨49, 61, 60, (0, 0)⟩ ⟨0, 0, 0, (0, 0)⟩).slaOutcome
        = some (((61 : Int) : Rat) / ((49 : Int) : Rat) * 100,
                decide ((60 : Rat) ≤ ((61 : Int) : Rat) / ((49 : Int) : Rat) * 100)) :=
  (analyze_sla_verdict ⟨49, 61, 60, (0, 0)⟩ ⟨0, 0, 0, (0, 0)⟩ (by norm_num)).1

/-- Claim C3: whenever eligibleRounds is 0 the vote ratio and SLA verdict
are reported as N/A (modelled by none): the analysis is total and the
outcome is not a zero ratio. -/
theorem analyze_sla_na (i f : Snapshot) (h : i.eligibleRounds = 0) :
    (analyze i f).slaOutcome = none := by
  simp [analyze, computeSla, h]

/-- Witness for claim C3 at a concrete snapshot with zero eligible rounds. -/
theorem analyze_sla_na_witness :
    (analyze ⟨0, 61, 60, (0, 0)⟩ ⟨0, 0, 0, (0, 0)⟩).slaOutcome = none :=
  analyze_sla_na ⟨0, 61, 60, (0, 0)⟩ ⟨0, 0, 0, (0, 0)⟩ rfl

/-- Counterexample to claim C4 as stated: for the ledger with only entry
(period 0, stake 100) and targetIndex 1 the maximal-key rule of the claim
accepts, yet the code rejects, because the strict-greater scan starting
from (0, 0) never records the stake of a period-0 entry. -/
theorem validateSubscription_counterexample :
    specValidStake 1 [(0, 100)] = true
    ∧ validateSubscription 1 (some [(0, 100)]) = Except.error "not subscribed" :=
  ⟨rfl, rfl⟩

/-- Claim C4 (amended): subscription validation succeeds with the scanned
stake exactly when targetIndex is at least the scanned lastUpdatePeriod and
that stake is positive, where the scan agrees with the maximal-key rule of
the spec whenever the maximal key is at least 1; the documented boundary
examples for the ledger entries (5, 100) and (5, 0) hold as stated. -/
theorem validateSubscription_amended (t k : Nat) (v : Int) (entries : List (Nat × Int))
    (hlast : specLastEntry entries = some (k, v)) (hk : 1 ≤ k) :
    (validateSubscription t (some entries) = Except.ok v ↔ (k ≤ t ∧ 0 < v))
    ∧ (validateSubscription t (some entries) = Except.ok v
        ↔ specValidStake t entries = true)
    ∧ (validateSubscription t (some [(5, 100)]) = Except.ok 100 ↔ 5 ≤ t)
    ∧ validateSubscription t (some [(5, 0)]) = Except.error "not subscribed" := by
  have hscan : scanLedger entries = (k, v) := by
    rw [scanLedger_eq, hlast]
    exact if_pos (by omega)
  have hmain : validateSubscription t (some entries) = Except.ok v ↔ (k ≤ t ∧ 0 < v) := by
    simp only [validateSubscription, hscan]
    by_cases hc : k ≤ t ∧ 0 < v
    · simp [hc]
    · simp only [hc, if_neg]
      simp [hc]
  refine ⟨hmain, ?_, ?_, ?_⟩
  · rw [hmain]
    simp [specValidStake, hlast]
  · have h5 : scanLedger [(5, 100)] = ((5 : Nat), (100 : Int)) := rfl
    simp only [validateSubscription, h5]
    by_cases h5t : 5 ≤ t
    · simp [h5t]
    · simp [h5t]
  · have h50 : scanLedger [(5, 0)] = ((5 : Nat), (0 : Int)) := rfl
    simp [validateSubscription, h50]

/-- Witness for claim C4 (amended) at targetIndex 6 and the singleton ledger
entry (5, 100). -/
theorem validateSubscription_amended_witness :
    (validateSubscription 6 (some [(5, 100)]) = Except.ok 100 ↔ (5 ≤ 6 ∧ (0 : Int) < 100))
    ∧ (validateSubscription 6 (some [(5, 100)]) = Except.ok 100
        ↔ specValidStake 6 [(5, 100)] = true)
    ∧ (validateSubscription 6 (some [(5, 100)]) = Except.ok 100 ↔ 5 ≤ 6)
    ∧ validateSubscription 6 (some [(5, 0)]) = Except.error "not subscribed" :=
  validateSubscription_amended 6 5 100 [(5, 100)] rfl (by omega)

/-- Claim C10: a stake ledger whose only entry has key 0 is always rejected
as not subscribed, for every stake value and every target index, because the
strict-greater scan started at (0, 0) never records the period-0 stake. -/
theorem validateSubscription_zero_period_entry (v : Int) (t : Nat) :
    validateSubscription t (some [(0, v)]) = Except.error "not subscribed" := by
  have h0 : scanLedger [(0, v)] = ((0 : Nat), (0 : Int)) := rfl
  simp [validateSubscription, h0]

/-- Claim C6: for every well-formed descriptor and targetIndex at most the
current index, the computed bounds are
start = firstBlock - (index - targetIndex) * length and
end = start + length - 1, so that end - start + 1 = length. -/
theorem getPeriodInfo_bounds (idx fb len t : Int) (ht : t ≤ idx) :
    getPeriodInfo ⟨some idx, some fb, some len⟩ t
        = Except.ok ⟨t, fb - (idx - t) * len, fb - (idx - t) * len + len - 1, len,
                     fb - (idx - t) * len⟩
    ∧ (fb - (idx - t) * len + len - 1) - (fb - (idx - t) * len) + 1 = len := by
  constructor
  · simp [getPeriodInfo, jsSub, jsMul, jsAdd]
  · ring

/-- Witness for claim C6 at a concrete descriptor and target index. -/
theorem getPeriodInfo_bounds_witness :
    getPeriodInfo ⟨some 1, some 7200, some 7200⟩ 0
        = Except.ok ⟨0, 7200 - (1 - 0) * 7200, 7200 - (1 - 0) * 7200 + 7200 - 1, 7200,
                     7200 - (1 - 0) * 7200⟩
    ∧ (7200 - (1 - 0) * 7200 + 7200 - 1) - (7200 - (1 - 0) * 7200) + 1 = (7200 : Int) :=
  getPeriodInfo_bounds 1 7200 7200 0 (by norm_num)

/-- Counterexample to claim C7 as stated: a descriptor with index 10,
firstBlock 100 and length 7200 queried at target index 0 produces the
negative bounds start = -71900 and end = -64701, and getPeriodInfo returns
them successfully instead of failing. -/
theorem getPeriodInfo_negative_counterexample :
    getPeriodInfo ⟨some 10, some 100, some 7200⟩ 0
        = Except.ok ⟨0, -71900, -64701, 7200, -71900⟩
    ∧ (-71900 : Int) < 0 := by
  constructor
  · norm_num [getPeriodInfo, jsSub, jsMul, jsAdd]
  · norm_num

/-- Claim C7 (amended): the geometry guard rejects exactly when the computed
start or end is NaN, which only arises from a non-numeric descriptor field;
any descriptor with integer fields is accepted, even when the resulting
bounds are negative. -/
theorem getPeriodInfo_guard_amended (idx fb len t : Int) :
    getPeriodInfo ⟨some idx, some fb, some len⟩ t
        = Except.ok ⟨t, fb - (idx - t) * len, fb - (idx - t) * len + len - 1, len,
                     fb - (idx - t) * len⟩
    ∧ (∀ f l : Option Int, getPeriodInfo ⟨none, f, l⟩ t
        = Except.error "Invalid period block calculation")
    ∧ (∀ i l : Option Int, getPeriodInfo ⟨i, none, l⟩ t
        = Except.error "Invalid period block calculation")
    ∧ (∀ i f : Option Int, getPeriodInfo ⟨i, f, none⟩ t
        = Except.error "Invalid period block calculation") := by
  refine ⟨by simp [getPeriodInfo, jsSub, jsMul, jsAdd], ?_, ?_, ?_⟩
  · intro f l; cases f <;> cases l <;> rfl
  · intro i l; cases i <;> cases l <;> rfl
  · intro i f; cases i <;> cases f <;> rfl

/-- Claim C5: a supplied pinned hash whose events lack the matching
distribution event fails with the pinned-mismatch error and neither the
indexer nor the chain scan is attempted; with no pinned hash and a
configured indexer that is unreachable or returns no block in the valid
window, the failure does not propagate and the chain scan runs and its
result is used. -/
theorem discoverBlock_strategy_priority
    (env1 env2 : DiscoverEnv) (p1 p2 : Nat) (h : Int)
    (hpin : env1.pinnedHash = some h)
    (hmiss : env1.hasRewardEvent h p1 = false)
    (hnopin : env2.pinnedHash = none)
    (hconf : env2.indexerConfigured = true)
    (hfail : env2.indexerReachable = false
      ∨ ∀ b ∈ env2.indexerEvents,
          ¬(nextPeriodStartBlock env2.current p2 ≤ b
            ∧ b ≤ nextPeriodStartBlock env2.current p2 + 2000)) :
    (discoverBlock env1 p1 = (Except.error DiscErr.pinnedMismatch, [Strategy.pinned])
      ∧ Strategy.indexer ∉ (discoverBlock env1 p1).2
      ∧ Strategy.chainScan ∉ (discoverBlock env1 p1).2)
    ∧ (discoverBlock env2 p2
          = (findBlockForPeriod env2 p2, [Strategy.indexer, Strategy.chainScan])
      ∧ Strategy.chainScan ∈ (discoverBlock env2 p2).2) := by
  have hq : queryIndexerForRewardsBlock env2 p2 = none := by
    unfold queryIndexerForRewardsBlock
    by_cases hr : env2.indexerReachable = false
    · rw [if_pos hr]
    · rw [if_neg hr]
      have hw : ∀ b ∈ env2.indexerEvents,
          ¬(nextPeriodStartBlock env2.current p2 ≤ b
            ∧ b ≤ nextPeriodStartBlock env2.current p2 + 2000) := hfail.resolve_left hr
      by_cases hemp : env2.indexerEvents.isEmpty
      · rw [if_pos hemp]
      · rw [if_neg hemp, List.find?_eq_none]
        intro x hx
        simp only [Bool.and_eq_true, decide_eq_true_eq, not_and]
        intro h1 h2
        exact hw x hx ⟨h1, h2⟩
  have hd1 : discoverBlock env1 p1
      = (Except.error DiscErr.pinnedMismatch, [Strategy.pinned]) := by
    unfold discoverBlock
    rw [hpin]
    simp [hmiss]
  have hd2 : discoverBlock env2 p2
      = (findBlockForPeriod env2 p2, [Strategy.indexer, Strategy.chainScan]) := by
    unfold discoverBlock
    rw [hnopin]
    simp [hconf, hq]
  refine ⟨⟨hd1, ?_, ?_⟩, hd2, ?_⟩
  · rw [hd1]; decide
  · rw [hd1]; decide
  · rw [hd2]; simp

/-- Witness for claim C5 at the concrete environments envPinnedBad and
envIndexerDown. -/
theorem discoverBlock_strategy_priority_witness :
    discoverBlock envPinnedBad 0 = (Except.error DiscErr.pinnedMismatch, [Strategy.pinned])
    ∧ discoverBlock envIndexerDown 0
        = (findBlockForPeriod envIndexerDown 0, [Strategy.indexer, Strategy.chainScan]) := by
  have h := discoverBlock_strategy_priority envPinnedBad envIndexerDown 0 0 7
    rfl rfl rfl rfl (Or.inl rfl)
  exact ⟨h.1.1, h.2.1⟩

/-- On a strictly descending list holding at least one block without the
event, the backward walk stops at the first such block, which is the
largest one without the event. -/
theorem walkBack_no_event (hasEarned : Int → Bool) (n : Int) :
    ∀ (bs : List Int) (last : Option Int),
      List.Pairwise (fun a b => b < a) bs →
      (∃ b ∈ bs, hasEarned b = false) →
      walkBack hasEarned n bs last ∈ bs
        ∧ hasEarned (walkBack hasEarned n bs last) = false
        ∧ ∀ b ∈ bs, hasEarned b = false → b ≤ walkBack hasEarned n bs last := by
  intro bs
  induction bs with
  | nil => intro last _ hex; simp at hex
  | cons b bs ih =>
      intro last hp hex
      rcases List.pairwise_cons.mp hp with ⟨hgt, hp2⟩
      cases hb : hasEarned b with
      | false =>
          refine ⟨?_, ?_, ?_⟩
          · simp [walkBack, hb]
          · simp [walkBack, hb]
          · intro x hx _
            rcases List.mem_cons.mp hx with rfl | hx2
            · simp [walkBack, hb]
            · have hxlt := hgt x hx2
              simp only [walkBack, hb, Bool.false_eq_true, if_false]
              omega
      | true =>
          have hex2 : ∃ c ∈ bs, hasEarned c = false := by
            rcases hex with ⟨c, hc, hcf⟩
            rcases List.mem_cons.mp hc with rfl | hc2
            · rw [hb] at hcf; cases hcf
            · exact ⟨c, hc2, hcf⟩
          obtain ⟨h1, h2, h3⟩ := ih (some b) hp2 hex2
          simp only [walkBack, hb, if_true]
          refine ⟨List.mem_cons_of_mem _ h1, h2, ?_⟩
          intro x hx hxf
          rcases List.mem_cons.mp hx with rfl | hx2
          · rw [hb] at hxf; cases hxf
          · exact h3 x hx2 hxf

/-- On a nonempty strictly descending list all of whose blocks hold the
event, the backward walk returns the smallest (oldest) listed block. -/
theorem walkBack_all_event (hasEarned : Int → Bool) (n : Int) :
    ∀ (bs : List Int) (last : Option Int),
      bs ≠ [] →
      List.Pairwise (fun a b => b < a) bs →
      (∀ b ∈ bs, hasEarned b = true) →
      walkBack hasEarned n bs last ∈ bs
        ∧ ∀ b ∈ bs, walkBack hasEarned n bs last ≤ b := by
  intro bs
  induction bs with
  | nil => intro last hne; exact absurd rfl hne
  | cons b bs ih =>
      intro last _ hp hall
      rcases List.pairwise_cons.mp hp with ⟨hgt, hp2⟩
      have hb : hasEarned b = true := hall b (List.mem_cons_self b bs)
      simp only [walkBack, hb, if_true]
      cases bs with
      | nil =>
          refine ⟨?_, ?_⟩
          · simp [walkBack]
          · intro x hx
            rcases List.mem_cons.mp hx with rfl | hx2
            · simp [walkBack]
            · simp at hx2
      | cons c cs =>
          obtain ⟨h1, h2⟩ := ih (some b) (by simp) hp2
            (fun x hx => hall x (List.mem_cons_of_mem _ hx))
          refine ⟨List.mem_cons_of_mem _ h1, ?_⟩
          intro x hx
          rcases List.mem_cons.mp hx with rfl | hx2
          · have := hgt _ h1
            omega
          · exact h2 x hx2

/-- The examined window is empty exactly in the underflow case. -/
theorem examinedWindow_eq_nil {n : Int} (h : n ≤ 0) : examinedWindow n = [] := by
  unfold examinedWindow
  rw [List.filter_eq_nil_iff]
  intro a ha
  rcases List.mem_map.mp ha with ⟨i, _, rfl⟩
  simp only [decide_eq_true_eq, not_le]
  omega

/-- The examined window is strictly descending. -/
theorem examinedWindow_sorted (n : Int) :
    List.Pairwise (fun a b => b < a) (examinedWindow n) := by
  have h1 : List.Pairwise (fun a b => b < a)
      ((List.range 50).map (fun i : Nat => n - (1 + (i : Int)))) := by
    refine List.pairwise_map.mpr ?_
    refine (List.pairwise_lt_range 50).imp ?_
    intro i j hij
    omega
  exact h1.sublist (List.filter_sublist _)

/-- Claim C8: the initial-state locator returns the closest earlier block
without an EarnedRewardCalculated event; when every examined block of the
50-block window holds that event it returns the farthest (oldest) examined
block; and when the window underflows below block 0 with nothing examined
it returns distributionBlock - 1. -/
theorem findBlockBefore_characterization (hasEarned : Int → Bool) (n : Int) :
    ((∃ b ∈ examinedWindow n, hasEarned b = false) →
        findBlockBeforeRewardsCalculated hasEarned n ∈ examinedWindow n
          ∧ hasEarned (findBlockBeforeRewardsCalculated hasEarned n) = false
          ∧ ∀ b ∈ examinedWindow n, hasEarned b = false →
              b ≤ findBlockBeforeRewardsCalculated hasEarned n)
    ∧ (examinedWindow n ≠ [] →
        (∀ b ∈ examinedWindow n, hasEarned b = true) →
        findBlockBeforeRewardsCalculated hasEarned n ∈ examinedWindow n
          ∧ ∀ b ∈ examinedWindow n, findBlockBeforeRewardsCalculated hasEarned n ≤ b)
    ∧ (n ≤ 0 → findBlockBeforeRewardsCalculated hasEarned n = n - 1) := by
  refine ⟨?_, ?_, ?_⟩
  · intro hex
    unfold findBlockBeforeRewardsCalculated
    exact walkBack_no_event hasEarned n (examinedWindow n) none (examinedWindow_sorted n) hex
  · intro hne hall
    unfold findBlockBeforeRewardsCalculated
    exact walkBack_all_event hasEarned n (examinedWindow n) none hne
      (examinedWindow_sorted n) hall
  · intro h
    unfold findBlockBeforeRewardsCalculated
    rw [examinedWindow_eq_nil h]
    rfl

/-- Witness for claim C8: with block 3 the only event-free block below
block 5 the locator lands on an event-free block; with every block holding
the event below block 5 it lands at most at block 0; and at distribution
block 0 it returns -1. -/
theorem findBlockBefore_characterization_witness :
    (fun b => decide (b ≠ 3)) (findBlockBeforeRewardsCalculated (fun b => decide (b ≠ 3)) 5)
        = false
    ∧ findBlockBeforeRewardsCalculated (fun _ => true) 5 ≤ 0
    ∧ findBlockBeforeRewardsCalculated (fun _ => true) 0 = 0 - 1 := by
  refine ⟨?_, ?_, ?_⟩
  · exact ((findBlockBefore_characterization (fun b => decide (b ≠ 3)) 5).1 (by decide)).2.1
  · exact ((findBlockBefore_characterization (fun _ => true) 5).2.1 (by decide)
      (by intro b _; rfl)).2 0 (by decide)
  · exact (findBlockBefore_characterization (fun _ => true) 0).2.2 (by norm_num)

/-- Counterexample to claim C9 as stated: at distribution block 0 the
locator takes its last-resort path and still returns a concrete block
(namely -1), so main hands a present block reference to the rewards read
and absence of the stored value aborts with an error instead of being
treated as (0, 0). -/
theorem initialRewards_absence_counterexample :
    findBlockBeforeRewardsCalculated (fun _ => true) 0 = 0 - 1
    ∧ mainInitialRewards (fun _ => true) (fun _ => none) 0
        = Except.error "Failed to get initial rewards" := by
  constructor
  · decide
  · rfl

/-- Claim C9 (amended): the (0, 0) substitution applies only when the
initial block reference itself is absent, and the locator always returns a
block (the last-resort path included), so in main the absence of the stored
reward totals is always an error that aborts the run. -/
theorem initialRewards_absence_amended
    (hasEarned : Int → Bool) (earned : Int → Option (Int × Int)) (n : Int)
    (habsent : earned (findBlockBeforeRewardsCalculated hasEarned n) = none) :
    mainInitialRewards hasEarned earned n = Except.error "Failed to get initial rewards"
    ∧ resolveInitialRewards earned none = Except.ok (0, 0) := by
  constructor
  · simp only [mainInitialRewards, resolveInitialRewards, habsent]
  · rfl

/-- Witness for claim C9 (amended) at distribution block 5 with no stored
reward totals anywhere. -/
theorem initialRewards_absence_amended_witness :
    mainInitialRewards (fun _ => true) (fun _ => none) 5
        = Except.error "Failed to get initial rewards"
    ∧ resolveInitialRewards (fun _ => none) none = Except.ok (0, 0) :=
  initialRewards_absence_amended (fun _ => true) (fun _ => none) 5 rfl
